import Mathlib

/-
Verification of the event-capture data path of this repository.

`Capture` embeds `src/capture/src/main.rs`: the `Event` record, the
`EventStore` (an `Arc<Mutex<HashMap<String, Vec<Event>>>>` modelled as an
association list plus a poison flag for the mutex), the `events.log` file
(modelled as its textual contents), `add_event`, `get_events`, and the two
warp handlers `handle_log_event` / `handle_get_events`.  Failure of the
file append (`File::options().append(true).open(..)` / `write_all`) is
driven by an explicit `ioOk` flag; an `unwrap` failure is a Rust panic,
which unwinds while the `MutexGuard` is live and therefore poisons the
mutex, after which every later `lock().unwrap()` panics as well.

`Server` embeds `src/server/src/capture.rs`: the `Event` row record and
`EventCapture::insert_event`, with the backend statement execution
abstracted as a function argument.
-/

namespace Capture

/-- Event record of `src/capture/src/main.rs`: `event_type: String`,
`timestamp: u64` (modelled as `Nat`; no arithmetic is performed on it),
`content: Option<String>`. -/
structure Event where
  event_type : String
  timestamp : Nat
  content : Option String
deriving DecidableEq, Repr

/-- Decimal digit character; callers only pass values below 10.  Models how
Rust's `Debug` for `u64` prints a digit. -/
def natDigit : Nat → Char
  | 0 => '0'
  | 1 => '1'
  | 2 => '2'
  | 3 => '3'
  | 4 => '4'
  | 5 => '5'
  | 6 => '6'
  | 7 => '7'
  | 8 => '8'
  | _ => '9'

/-- Fuel-indexed decimal rendering of a natural number, most significant
digit first (`acc` accumulates the already-rendered low digits).  The fuel
is always at least the number of digits, so the fuel-exhausted arm is never
reached from `natDigits`. -/
def natDigitsAux : Nat → Nat → List Char → List Char
  | 0, _, acc => acc
  | fuel + 1, n, acc =>
    if n < 10 then natDigit n :: acc
    else natDigitsAux fuel (n / 10) (natDigit (n % 10) :: acc)

/-- Decimal rendering of a `u64`, as Rust's derived `Debug` prints the
`timestamp` field. -/
def natDigits (n : Nat) : List Char :=
  natDigitsAux (n + 1) n []

/-- Lowercase hexadecimal digit, as used by Rust's `\u` escapes; callers
only pass values below 16. -/
def hexChar : Nat → Char
  | 0 => '0'
  | 1 => '1'
  | 2 => '2'
  | 3 => '3'
  | 4 => '4'
  | 5 => '5'
  | 6 => '6'
  | 7 => '7'
  | 8 => '8'
  | 9 => '9'
  | 10 => 'a'
  | 11 => 'b'
  | 12 => 'c'
  | 13 => 'd'
  | 14 => 'e'
  | _ => 'f'

/-- Minimal lowercase hexadecimal rendering, as inside Rust's `\u{..}`
escape.  Faithful for values below 256; `escapeCharL` only calls it with
values at most 127. -/
def hexDigits (n : Nat) : List Char :=
  if n < 16 then [hexChar n] else [hexChar (n / 16), hexChar (n % 16)]

/-- Escape of one character inside a double-quoted `Debug` string, modelling
Rust's `char::escape_debug` as used by `format!("{:?}", event)`: the named
escapes `\0 \t \r \n \\ \"`, a `\u` escape for the remaining ASCII control
characters (and DEL), and the character itself otherwise.  (Rust also
`\u`-escapes some non-ASCII non-printable characters; for those this model
keeps the character itself, which affects no claim proved here.) -/
def escapeCharL (c : Char) : List Char :=
  if c = '\x00' then ['\\', '0']
  else if c = '\t' then ['\\', 't']
  else if c = '\r' then ['\\', 'r']
  else if c = '\n' then ['\\', 'n']
  else if c = '\\' then ['\\', '\\']
  else if c = '\"' then ['\\', '\"']
  else if c.toNat < 32 ∨ c.toNat = 127 then
    ['\\', 'u', '\x7b'] ++ hexDigits c.toNat ++ ['\x7d']
  else [c]

/-- Escape of a character sequence, character by character. -/
def escapeStringL : List Char → List Char
  | [] => []
  | c :: cs => escapeCharL c ++ escapeStringL cs

/-- Rust `Debug` rendering of a `String`: double quotes around the escaped
characters. -/
def debugStr (s : String) : List Char :=
  '\"' :: (escapeStringL s.data ++ ['\"'])

/-- Rust `Debug` rendering of an `Option<String>`. -/
def debugOptionL : Option String → List Char
  | none => "None".data
  | some s => "Some(".data ++ (debugStr s ++ [')'])

/-- Rust derived `Debug` rendering of `Event`, as produced by
`format!("{:?}", event)` in `add_event`. -/
def debugEventL (e : Event) : List Char :=
  "Event \x7b event_type: ".data ++ debugStr e.event_type
    ++ ", timestamp: ".data ++ natDigits e.timestamp
    ++ ", content: ".data ++ debugOptionL e.content ++ [' ', '\x7d']

/-- The log record `add_event` writes for one event:
`format!("{:?}\n", event)`. -/
def logEntry (e : Event) : String :=
  ⟨debugEventL e ++ ['\n']⟩

/-- Lookup in the `HashMap<String, Vec<Event>>`, modelled as an association
list (`HashMap::get`). -/
def lookupAssoc : List (String × List Event) → String → Option (List Event)
  | [], _ => none
  | (k', l) :: rest, k => if k' = k then some l else lookupAssoc rest k

/-- The map update `events.entry(session_id.to_string()).or_default().push(event)`:
append the event at the tail of the key's vector, creating the entry if
absent. -/
def pushAssoc : List (String × List Event) → String → Event → List (String × List Event)
  | [], k, e => [(k, [e])]
  | (k', l) :: rest, k, e =>
    if k' = k then (k', l ++ [e]) :: rest else (k', l) :: pushAssoc rest k e

/-- Process state: the `EventStore` map, the poison flag of its
`std::sync::Mutex`, and the contents of `events.log` (`none` when the file
does not exist). -/
structure Sys where
  store : List (String × List Event)
  poisoned : Bool
  file : Option String
deriving DecidableEq, Repr

/-- Embedding of `EventStore::add_event`.  The code locks the mutex
(`lock().unwrap()` panics when the mutex is poisoned), pushes the event into
the map, and only then opens `events.log` in append mode and writes the
record, with the `MutexGuard` still live.  `ioOk = false` models a simulated
fault of that open/write; the resulting `unwrap` panic unwinds while the
guard is held, so it poisons the mutex and leaves the already-updated map
behind.  The returned `Bool` is `true` iff the call completed without
panicking. -/
def add_event (s : Sys) (session_id : String) (e : Event) (ioOk : Bool) : Bool × Sys :=
  if s.poisoned then (false, s)
  else
    match s.file, ioOk with
    | some c, true =>
      (true, { store := pushAssoc s.store session_id e, poisoned := false,
               file := some (c ++ logEntry e) })
    | some c, false =>
      (false, { store := pushAssoc s.store session_id e, poisoned := true,
                file := some c })
    | none, _ =>
      (false, { store := pushAssoc s.store session_id e, poisoned := true,
                file := none })

/-- Embedding of `EventStore::get_events`: lock the mutex (panic when
poisoned, modelled by the outer `none`), then `HashMap::get(..).cloned()`. -/
def get_events (s : Sys) (session_id : String) : Option (Option (List Event)) :=
  if s.poisoned then none else some (lookupAssoc s.store session_id)

/-- Reply value of a handler, as serialized by `warp::reply::json`: either a
JSON string message or the JSON array of events. -/
inductive Reply where
  | msg (s : String)
  | events (es : List Event)
deriving DecidableEq, Repr

/-- Outcome of one request: a reply, or a panic of the handling task. -/
inductive Outcome where
  | ok (r : Reply)
  | panicked
deriving DecidableEq, Repr

/-- Embedding of `handle_log_event`: when `event.content` is present it is
used as the session key and `add_event` runs (its panic propagates);
otherwise the handler replies `"Missing session_id"` and touches nothing. -/
def handle_log_event (e : Event) (s : Sys) (ioOk : Bool) : Outcome × Sys :=
  match e.content with
  | some session_id =>
    let r := add_event s session_id e ioOk
    if r.1 then (.ok (.msg "Event logged"), r.2) else (.panicked, r.2)
  | none => (.ok (.msg "Missing session_id"), s)

/-- Embedding of `handle_get_events`, with the query parameters reduced to
the presence and value of `session_id`. -/
def handle_get_events (sessionParam : Option String) (s : Sys) : Outcome × Sys :=
  match sessionParam with
  | some session_id =>
    match get_events s session_id with
    | none => (.panicked, s)
    | some (some evs) => (.ok (.events evs), s)
    | some none => (.ok (.msg "No events found for session_id"), s)
  | none => (.ok (.msg "Missing session_id"), s)

/-- One inbound request: a `POST /log_event` (with the fault flag of its
file append) or a `GET /get_events`. -/
inductive Req where
  | log (e : Event) (ioOk : Bool)
  | get (sessionParam : Option String)
deriving DecidableEq, Repr

/-- Dispatch one request to its handler. -/
def step (s : Sys) : Req → Outcome × Sys
  | .log e ioOk => handle_log_event e s ioOk
  | .get p => handle_get_events p s

/-- Run a sequence of requests, collecting each request's outcome and the
final state.  A panicked request kills only its own task; the shared
`EventStore` (and the poison flag it now carries) remains for the next
request. -/
def run : Sys → List Req → List Outcome × Sys
  | s, [] => ([], s)
  | s, r :: rs =>
    ((step s r).1 :: (run (step s r).2 rs).1, (run (step s r).2 rs).2)

/-- Final state after a sequence of requests. -/
def runState (s : Sys) (rs : List Req) : Sys :=
  (run s rs).2

/-- Semantics of `File::create("events.log")` in `main`'s logger
initialization: create the file, truncating it when it already exists, so
its contents are empty afterwards whatever they were before. -/
def file_create (prevContents : Option String) : Option String :=
  some ""

/-- Process startup (`main` before serving): a fresh empty `EventStore`, an
unpoisoned mutex, and `events.log` created anew by `File::create`,
regardless of the file left by a previous run. -/
def startup (prevContents : Option String) : Sys :=
  { store := [], poisoned := false, file := file_create prevContents }

/-- The startup state of a run that found no previous log file. -/
def initSys : Sys :=
  startup none

/-- A trace made only of ingestion requests, each with its fault flag. -/
def ingestTrace (t : List (Event × Bool)) : List Req :=
  t.map fun p => .log p.1 p.2

/-- The events of an ingest trace whose session key is `k`, in trace
order. -/
def ingestedFor (k : String) (t : List (Event × Bool)) : List Event :=
  (t.map Prod.fst).filter fun e => decide (e.content = some k)

/-- Combination of an existing map entry with newly appended events: no
entry and nothing appended stays no entry; otherwise the appended events
land at the tail. -/
def appendNew (old : Option (List Event)) (l : List Event) : Option (List Event) :=
  match old, l with
  | none, [] => none
  | none, l => some l
  | some xs, l => some (xs ++ l)

end Capture

namespace Server

/-- Event row record of `src/server/src/capture.rs`. -/
structure Event where
  user_id : String
  event_type : String
  timestamp : String
  data : Option String
deriving DecidableEq, Repr

/-- Backend error (`tokio_postgres::Error`), kept abstract up to its
message. -/
structure PgError where
  msg : String
deriving DecidableEq, Repr

/-- A value bound to a statement placeholder, as the `&[&dyn ToSql]` slice
passes it: a text field or a nullable text field. -/
inductive SqlValue where
  | text (s : String)
  | nullableText (s : Option String)
deriving DecidableEq, Repr

/-- The SQL statement literal of `EventCapture::insert_event`, exactly as
written in the source. -/
def insertStmt : String :=
  "\n            INSERT INTO events (user_id, event_type, timestamp, data)\n            VALUES ($1, $2, $3, $4)\n        "

/-- The statement text `insert_event` hands to the backend for a given
event; the source binds the literal `stmt` before looking at the event, so
this is the constant `insertStmt`. -/
def stmtFor (e : Event) : String :=
  insertStmt

/-- The parameter list `insert_event` binds positionally:
`$1 = user_id`, `$2 = event_type`, `$3 = timestamp`, `$4 = data`. -/
def paramsFor (e : Event) : List SqlValue :=
  [.text e.user_id, .text e.event_type, .text e.timestamp, .nullableText e.data]

/-- Embedding of `EventCapture::insert_event`, with `client.execute`
abstracted as `execute` (returning the affected row count on success):
`client.execute(stmt, &[..]).await?` returns the backend's error unchanged
via `?`, and otherwise the function returns `Ok(())`. -/
def insert_event (execute : String → List SqlValue → Except PgError Nat) (e : Event) :
    Except PgError Unit :=
  match execute (stmtFor e) (paramsFor e) with
  | .ok _ => .ok ()
  | .error err => .error err

end Server

open Capture

theorem natDigit_ne_nl (n : Nat) : natDigit n ≠ '\n' := by
  rcases n with _ | _ | _ | _ | _ | _ | _ | _ | _ | n
  all_goals first
  | decide
  | exact (show ('9' : Char) ≠ '\n' from by decide)

theorem hexChar_ne_nl (n : Nat) : hexChar n ≠ '\n' := by
  rcases n with _ | _ | _ | _ | _ | _ | _ | _ | _ | _ | _ | _ | _ | _ | _ | n
  all_goals first
  | decide
  | exact (show ('f' : Char) ≠ '\n' from by decide)

theorem hexDigits_noNL (n : Nat) (x : Char) (hx : x ∈ hexDigits n) : x ≠ '\n' := by
  unfold hexDigits at hx
  split at hx
  · rw [List.mem_singleton] at hx; subst hx; exact hexChar_ne_nl n
  · rcases List.mem_cons.mp hx with h | h
    · subst h; exact hexChar_ne_nl _
    · rw [List.mem_singleton] at h; subst h; exact hexChar_ne_nl _

theorem natDigitsAux_noNL (fuel : Nat) :
    ∀ (n : Nat) (acc : List Char), (∀ c ∈ acc, c ≠ '\n') →
      ∀ c ∈ natDigitsAux fuel n acc, c ≠ '\n' := by
  induction fuel with
  | zero => intro n acc hacc c hc; exact hacc c hc
  | succ fuel ih =>
    intro n acc hacc c hc
    unfold natDigitsAux at hc
    split at hc
    · rcases List.mem_cons.mp hc with h | h
      · subst h; exact natDigit_ne_nl n
      · exact hacc c h
    · refine ih (n / 10) (natDigit (n % 10) :: acc) ?_ c hc
      intro c' hc'
      rcases List.mem_cons.mp hc' with h | h
      · subst h; exact natDigit_ne_nl _
      · exact hacc c' h

theorem natDigits_noNL (n : Nat) (x : Char) (hx : x ∈ natDigits n) : x ≠ '\n' :=
  natDigitsAux_noNL (n + 1) n [] (fun c hc => absurd hc (List.not_mem_nil c)) x hx

theorem mem_pair_ne_nl (a b x : Char) (ha : a ≠ '\n') (hb : b ≠ '\n')
    (hx : x ∈ [a, b]) : x ≠ '\n' := by
  rcases List.mem_cons.mp hx with h | h
  · subst h; exact ha
  · rw [List.mem_singleton] at h; subst h; exact hb

theorem escapeCharL_noNL (c x : Char) (hx : x ∈ escapeCharL c) : x ≠ '\n' := by
  unfold escapeCharL at hx
  by_cases h0 : c = '\x00'
  · rw [if_pos h0] at hx
    exact mem_pair_ne_nl _ _ _ (by decide) (by decide) hx
  rw [if_neg h0] at hx
  by_cases h1 : c = '\t'
  · rw [if_pos h1] at hx
    exact mem_pair_ne_nl _ _ _ (by decide) (by decide) hx
  rw [if_neg h1] at hx
  by_cases h2 : c = '\r'
  · rw [if_pos h2] at hx
    exact mem_pair_ne_nl _ _ _ (by decide) (by decide) hx
  rw [if_neg h2] at hx
  by_cases h3 : c = '\n'
  · rw [if_pos h3] at hx
    exact mem_pair_ne_nl _ _ _ (by decide) (by decide) hx
  rw [if_neg h3] at hx
  by_cases h4 : c = '\\'
  · rw [if_pos h4] at hx
    exact mem_pair_ne_nl _ _ _ (by decide) (by decide) hx
  rw [if_neg h4] at hx
  by_cases h5 : c = '\"'
  · rw [if_pos h5] at hx
    exact mem_pair_ne_nl _ _ _ (by decide) (by decide) hx
  rw [if_neg h5] at hx
  by_cases h6 : c.toNat < 32 ∨ c.toNat = 127
  · rw [if_pos h6] at hx
    rcases List.mem_append.mp hx with h | h
    · rcases List.mem_append.mp h with h | h
      · rcases List.mem_cons.mp h with h | h
        · subst h; decide
        rcases List.mem_cons.mp h with h | h
        · subst h; decide
        · rw [List.mem_singleton] at h; subst h; decide
      · exact hexDigits_noNL _ x h
    · rw [List.mem_singleton] at h; subst h; decide
  · rw [if_neg h6] at hx
    rw [List.mem_singleton] at hx; subst hx; exact h3

theorem escapeStringL_noNL (l : List Char) (x : Char) (hx : x ∈ escapeStringL l) : x ≠ '\n' := by
  induction l with
  | nil => exact absurd hx (List.not_mem_nil x)
  | cons c cs ih =>
    have hx' : x ∈ escapeCharL c ++ escapeStringL cs := hx
    rcases List.mem_append.mp hx' with h | h
    · exact escapeCharL_noNL c x h
    · exact ih h

theorem debugStr_noNL (s : String) (x : Char) (hx : x ∈ debugStr s) : x ≠ '\n' := by
  have hx' : x ∈ '\"' :: (escapeStringL s.data ++ ['\"']) := hx
  rcases List.mem_cons.mp hx' with h | h
  · subst h; decide
  rcases List.mem_append.mp h with h | h
  · exact escapeStringL_noNL _ x h
  · rw [List.mem_singleton] at h; subst h; decide

theorem debugOptionL_noNL (o : Option String) (x : Char) (hx : x ∈ debugOptionL o) :
    x ≠ '\n' := by
  cases o with
  | none => exact (show ∀ y ∈ "None".data, y ≠ '\n' by decide) x hx
  | some s =>
    have hx' : x ∈ "Some(".data ++ (debugStr s ++ [')']) := hx
    rcases List.mem_append.mp hx' with h | h
    · exact (show ∀ y ∈ "Some(".data, y ≠ '\n' by decide) x h
    rcases List.mem_append.mp h with h | h
    · exact debugStr_noNL s x h
    · rw [List.mem_singleton] at h; subst h; decide

theorem debugEventL_noNL (e : Event) (x : Char) (hx : x ∈ debugEventL e) : x ≠ '\n' := by
  have hx' : x ∈ ((((("Event \x7b event_type: ".data ++ debugStr e.event_type)
      ++ ", timestamp: ".data) ++ natDigits e.timestamp)
      ++ ", content: ".data) ++ debugOptionL e.content) ++ [' ', '\x7d'] := hx
  rcases List.mem_append.mp hx' with h | h
  · rcases List.mem_append.mp h with h | h
    · rcases List.mem_append.mp h with h | h
      · rcases List.mem_append.mp h with h | h
        · rcases List.mem_append.mp h with h | h
          · rcases List.mem_append.mp h with h | h
            · exact (show ∀ y ∈ "Event \x7b event_type: ".data, y ≠ '\n' by decide) x h
            · exact debugStr_noNL _ x h
          · exact (show ∀ y ∈ ", timestamp: ".data, y ≠ '\n' by decide) x h
        · exact natDigits_noNL _ x h
      · exact (show ∀ y ∈ ", content: ".data, y ≠ '\n' by decide) x h
    · exact debugOptionL_noNL _ x h
  · rcases List.mem_cons.mp h with h | h
    · subst h; decide
    · rw [List.mem_singleton] at h; subst h; decide

theorem lookupAssoc_pushAssoc_self (st : List (String × List Event)) (k : String) (e : Event) :
    lookupAssoc (pushAssoc st k e) k = some ((lookupAssoc st k).getD [] ++ [e]) := by
  induction st with
  | nil => simp [pushAssoc, lookupAssoc]
  | cons p rest ih =>
    obtain ⟨k', l⟩ := p
    by_cases h : k' = k
    · subst h; simp [pushAssoc, lookupAssoc]
    · simp [pushAssoc, lookupAssoc, h, ih]

theorem lookupAssoc_pushAssoc_ne (st : List (String × List Event)) (k k' : String) (e : Event)
    (h : k ≠ k') : lookupAssoc (pushAssoc st k e) k' = lookupAssoc st k' := by
  induction st with
  | nil => simp [pushAssoc, lookupAssoc, h]
  | cons p rest ih =>
    obtain ⟨k0, l⟩ := p
    by_cases h0 : k0 = k
    · subst h0; simp [pushAssoc, lookupAssoc, h]
    · simp only [pushAssoc, if_neg h0, lookupAssoc]
      split
      · rfl
      · exact ih

theorem appendNew_nil (o : Option (List Event)) : appendNew o [] = o := by
  cases o with
  | none => rfl
  | some xs => exact congrArg some (List.append_nil xs)

theorem appendNew_push (o : Option (List Event)) (e : Event) (l : List Event) :
    appendNew (some (o.getD [] ++ [e])) l = appendNew o (e :: l) := by
  cases o with
  | none =>
    show some (([] ++ [e]) ++ l) = some (e :: l)
    simp
  | some xs =>
    show some ((xs ++ [e]) ++ l) = some (xs ++ e :: l)
    simp

theorem ingestedFor_cons_self (k : String) (e : Event) (io : Bool) (t : List (Event × Bool))
    (hc : e.content = some k) :
    ingestedFor k ((e, io) :: t) = e :: ingestedFor k t := by
  simp [ingestedFor, hc]

theorem ingestedFor_cons_ne (k : String) (e : Event) (io : Bool) (t : List (Event × Bool))
    (hc : e.content ≠ some k) :
    ingestedFor k ((e, io) :: t) = ingestedFor k t := by
  simp [ingestedFor, hc]

theorem run_nil (s : Sys) : run s [] = ([], s) := rfl

theorem run_cons (s : Sys) (r : Req) (rs : List Req) :
    run s (r :: rs)
      = ((step s r).1 :: (run (step s r).2 rs).1, (run (step s r).2 rs).2) := rfl

theorem runState_nil (s : Sys) : runState s [] = s := rfl

theorem runState_cons (s : Sys) (r : Req) (rs : List Req) :
    runState s (r :: rs) = runState (step s r).2 rs := rfl

theorem handle_log_event_none (e : Event) (s : Sys) (io : Bool) (hc : e.content = none) :
    handle_log_event e s io = (.ok (.msg "Missing session_id"), s) := by
  unfold handle_log_event
  rw [hc]

theorem handle_log_event_eq (e : Event) (s : Sys) (io : Bool) (sid : String)
    (hc : e.content = some sid) :
    handle_log_event e s io
      = if (add_event s sid e io).1
        then (.ok (.msg "Event logged"), (add_event s sid e io).2)
        else (.panicked, (add_event s sid e io).2) := by
  unfold handle_log_event
  rw [hc]

theorem add_event_poisoned (s : Sys) (sid : String) (e : Event) (io : Bool)
    (hp : s.poisoned = true) : add_event s sid e io = (false, s) := by
  simp [add_event, hp]

theorem add_event_ok (s : Sys) (sid : String) (e : Event) (c : String)
    (hp : s.poisoned = false) (hf : s.file = some c) :
    add_event s sid e true
      = (true, { store := pushAssoc s.store sid e, poisoned := false,
                 file := some (c ++ logEntry e) }) := by
  simp [add_event, hp, hf]

theorem add_event_fail (s : Sys) (sid : String) (e : Event) (c : String)
    (hp : s.poisoned = false) (hf : s.file = some c) :
    add_event s sid e false
      = (false, { store := pushAssoc s.store sid e, poisoned := true, file := some c }) := by
  simp [add_event, hp, hf]

theorem add_event_nofile (s : Sys) (sid : String) (e : Event) (io : Bool)
    (hp : s.poisoned = false) (hf : s.file = none) :
    add_event s sid e io
      = (false, { store := pushAssoc s.store sid e, poisoned := true, file := none }) := by
  cases io <;> simp [add_event, hp, hf]

theorem add_event_store (s : Sys) (sid : String) (e : Event) (io : Bool)
    (hp : s.poisoned = false) :
    (add_event s sid e io).2.store = pushAssoc s.store sid e := by
  cases hf : s.file with
  | none => rw [add_event_nofile s sid e io hp hf]
  | some c =>
    cases io with
    | true => rw [add_event_ok s sid e c hp hf]
    | false => rw [add_event_fail s sid e c hp hf]

theorem step_log_snd (e : Event) (s : Sys) (io : Bool) (sid : String)
    (hc : e.content = some sid) :
    (handle_log_event e s io).2 = (add_event s sid e io).2 := by
  rw [handle_log_event_eq e s io sid hc]
  by_cases hb : (add_event s sid e io).1 <;> simp [hb]

theorem handle_get_events_state (p : Option String) (s : Sys) :
    (handle_get_events p s).2 = s := by
  cases p with
  | none => rfl
  | some k =>
    cases hq : get_events s k with
    | none => simp [handle_get_events, hq]
    | some o => cases o <;> simp [handle_get_events, hq]

theorem add_event_failed_poisons (e : Event) (sid : String) (s : Sys)
    (hp : s.poisoned = false) (hc : e.content = some sid) :
    (handle_log_event e s false).1 = .panicked
    ∧ (handle_log_event e s false).2
        = { store := pushAssoc s.store sid e, poisoned := true, file := s.file } := by
  cases hf : s.file with
  | none =>
    rw [handle_log_event_eq e s false sid hc, add_event_nofile s sid e false hp hf]
    exact ⟨rfl, rfl⟩
  | some c =>
    rw [handle_log_event_eq e s false sid hc, add_event_fail s sid e c hp hf]
    exact ⟨rfl, rfl⟩

theorem handle_log_event_poisoned (e : Event) (s : Sys) (io : Bool) (sid : String)
    (hc : e.content = some sid) (hp : s.poisoned = true) :
    (handle_log_event e s io).1 = .panicked := by
  rw [handle_log_event_eq e s io sid hc, add_event_poisoned s sid e io hp]
  rfl

theorem handle_get_events_poisoned (k : String) (s : Sys) (hp : s.poisoned = true) :
    (handle_get_events (some k) s).1 = .panicked := by
  simp [handle_get_events, get_events, hp]

theorem accepted_log_step (e : Event) (s : Sys) (io : Bool)
    (hp : s.poisoned = false)
    (hacc : (handle_log_event e s io).1 = .ok (.msg "Event logged")) :
    ∃ sid c, e.content = some sid ∧ io = true ∧ s.file = some c ∧
      handle_log_event e s io
        = (.ok (.msg "Event logged"),
           { store := pushAssoc s.store sid e, poisoned := false,
             file := some (c ++ logEntry e) }) := by
  cases hc : e.content with
  | none =>
    rw [handle_log_event_none e s io hc] at hacc
    have h' : Outcome.ok (Reply.msg "Missing session_id")
        = Outcome.ok (Reply.msg "Event logged") := hacc
    exact absurd h' (by decide)
  | some sid =>
    cases hf : s.file with
    | none =>
      rw [handle_log_event_eq e s io sid hc, add_event_nofile s sid e io hp hf] at hacc
      have h' : Outcome.panicked = Outcome.ok (Reply.msg "Event logged") := hacc
      exact absurd h' (by decide)
    | some c =>
      cases io with
      | false =>
        rw [handle_log_event_eq e s false sid hc, add_event_fail s sid e c hp hf] at hacc
        have h' : Outcome.panicked = Outcome.ok (Reply.msg "Event logged") := hacc
        exact absurd h' (by decide)
      | true =>
        refine ⟨sid, c, rfl, rfl, rfl, ?_⟩
        rw [handle_log_event_eq e s true sid hc, add_event_ok s sid e c hp hf]
        rfl

theorem pushAssoc_nonempty (st : List (String × List Event)) (k : String) (e : Event)
    (h : ∀ k' l, lookupAssoc st k' = some l → l ≠ []) :
    ∀ k' l, lookupAssoc (pushAssoc st k e) k' = some l → l ≠ [] := by
  intro k' l hl
  by_cases hk : k = k'
  · subst hk
    rw [lookupAssoc_pushAssoc_self] at hl
    injection hl with hl
    subst hl
    simp
  · rw [lookupAssoc_pushAssoc_ne st k k' e hk] at hl
    exact h k' l hl

theorem pushAssoc_keyed (st : List (String × List Event)) (sid : String) (e : Event)
    (h : ∀ k l, lookupAssoc st k = some l → ∀ x ∈ l, x.content = some k)
    (he : e.content = some sid) :
    ∀ k l, lookupAssoc (pushAssoc st sid e) k = some l → ∀ x ∈ l, x.content = some k := by
  intro k l hl x hx
  by_cases hk : sid = k
  · subst hk
    rw [lookupAssoc_pushAssoc_self] at hl
    injection hl with hl
    subst hl
    rcases List.mem_append.mp hx with h1 | h2
    · cases ho : lookupAssoc st sid with
      | none => rw [ho] at h1; simp at h1
      | some xs =>
        rw [ho] at h1
        exact h sid xs ho x h1
    · rw [List.mem_singleton] at h2; subst h2; exact he
  · rw [lookupAssoc_pushAssoc_ne st sid k e hk] at hl
    exact h k l hl x hx

theorem step_invariants (s : Sys) (r : Req)
    (h1 : ∀ k l, lookupAssoc s.store k = some l → l ≠ [])
    (h2 : ∀ k l, lookupAssoc s.store k = some l → ∀ x ∈ l, x.content = some k) :
    (∀ k l, lookupAssoc (step s r).2.store k = some l → l ≠ [])
    ∧ (∀ k l, lookupAssoc (step s r).2.store k = some l → ∀ x ∈ l, x.content = some k) := by
  cases r with
  | get p =>
    rw [show (step s (.get p)).2 = s from handle_get_events_state p s]
    exact ⟨h1, h2⟩
  | log e io =>
    cases hc : e.content with
    | none =>
      have hs : (step s (.log e io)).2 = s := by
        show (handle_log_event e s io).2 = s
        rw [handle_log_event_none e s io hc]
      rw [hs]
      exact ⟨h1, h2⟩
    | some sid =>
      have hs : (step s (.log e io)).2 = (add_event s sid e io).2 :=
        step_log_snd e s io sid hc
      rw [hs]
      by_cases hp : s.poisoned = true
      · rw [add_event_poisoned s sid e io hp]
        exact ⟨h1, h2⟩
      · rw [Bool.not_eq_true] at hp
        rw [show (add_event s sid e io).2.store = pushAssoc s.store sid e from
          add_event_store s sid e io hp]
        exact ⟨pushAssoc_nonempty s.store sid e h1, pushAssoc_keyed s.store sid e h2 hc⟩

theorem run_invariants (rs : List Req) : ∀ s : Sys,
    (∀ k l, lookupAssoc s.store k = some l → l ≠ []) →
    (∀ k l, lookupAssoc s.store k = some l → ∀ x ∈ l, x.content = some k) →
    (∀ k l, lookupAssoc (runState s rs).store k = some l → l ≠ [])
    ∧ (∀ k l, lookupAssoc (runState s rs).store k = some l → ∀ x ∈ l, x.content = some k) := by
  induction rs with
  | nil => intro s h1 h2; exact ⟨h1, h2⟩
  | cons r rs ih =>
    intro s h1 h2
    have h := step_invariants s r h1 h2
    rw [runState_cons]
    exact ih (step s r).2 h.1 h.2

theorem run_frame (rs : List Req) (k : String) : ∀ s : Sys,
    (∀ e io, Req.log e io ∈ rs → e.content ≠ some k) →
    lookupAssoc (runState s rs).store k = lookupAssoc s.store k := by
  induction rs with
  | nil => intro s _; rfl
  | cons r rs ih =>
    intro s hk
    rw [runState_cons, ih (step s r).2 (fun e io hm => hk e io (List.mem_cons_of_mem _ hm))]
    cases r with
    | get p => rw [show (step s (.get p)).2 = s from handle_get_events_state p s]
    | log e io =>
      cases hc : e.content with
      | none =>
        rw [show (step s (.log e io)).2 = s from by
          show (handle_log_event e s io).2 = s
          rw [handle_log_event_none e s io hc]]
      | some sid =>
        have hsid : sid ≠ k := fun h => hk e io (List.mem_cons_self _ _) (by rw [hc, h])
        rw [show (step s (.log e io)).2 = (add_event s sid e io).2 from
          step_log_snd e s io sid hc]
        by_cases hp : s.poisoned = true
        · rw [add_event_poisoned s sid e io hp]
        · rw [Bool.not_eq_true] at hp
          rw [show (add_event s sid e io).2.store = pushAssoc s.store sid e from
            add_event_store s sid e io hp]
          exact lookupAssoc_pushAssoc_ne s.store sid k e hsid

theorem run_ingest_spec (t : List (Event × Bool)) : ∀ s : Sys,
    s.poisoned = false → (∃ c, s.file = some c) →
    (∀ o ∈ (run s (ingestTrace t)).1, o = .ok (.msg "Event logged")) →
    (runState s (ingestTrace t)).poisoned = false
    ∧ (∃ c, (runState s (ingestTrace t)).file = some c)
    ∧ ∀ k, lookupAssoc (runState s (ingestTrace t)).store k
        = appendNew (lookupAssoc s.store k) (ingestedFor k t) := by
  induction t with
  | nil =>
    intro s hp hf _
    refine ⟨hp, hf, fun k => ?_⟩
    show lookupAssoc s.store k = appendNew (lookupAssoc s.store k) []
    rw [appendNew_nil]
  | cons p t ih =>
    obtain ⟨e, io⟩ := p
    intro s hp hf hacc
    have htr : ingestTrace ((e, io) :: t) = .log e io :: ingestTrace t := rfl
    have hmem : (step s (.log e io)).1 ∈ (run s (ingestTrace ((e, io) :: t))).1 := by
      rw [htr, run_cons]
      exact List.mem_cons_self _ _
    have hacc0 : (handle_log_event e s io).1 = .ok (.msg "Event logged") := hacc _ hmem
    obtain ⟨sid, c, hc, hio, hfc, heq⟩ := accepted_log_step e s io hp hacc0
    subst hio
    obtain ⟨s1, hs1⟩ : ∃ s1 : Sys,
        s1 = (⟨pushAssoc s.store sid e, false, some (c ++ logEntry e)⟩ : Sys) := ⟨_, rfl⟩
    have hstep : step s (.log e true) = (.ok (.msg "Event logged"), s1) := by
      rw [hs1]; exact heq
    have hacc' : ∀ o ∈ (run s1 (ingestTrace t)).1, o = .ok (.msg "Event logged") := by
      intro o ho
      apply hacc
      rw [htr, run_cons, hstep]
      exact List.mem_cons_of_mem _ ho
    have hp1 : s1.poisoned = false := by rw [hs1]
    have hf1 : ∃ d, s1.file = some d := ⟨c ++ logEntry e, by rw [hs1]⟩
    have hrec := ih s1 hp1 hf1 hacc'
    have hrs : runState s (ingestTrace ((e, true) :: t)) = runState s1 (ingestTrace t) := by
      rw [htr, runState_cons, hstep]
    refine ⟨by rw [hrs]; exact hrec.1, by rw [hrs]; exact hrec.2.1, fun k => ?_⟩
    rw [hrs, hrec.2.2 k, hs1]
    by_cases hks : sid = k
    · subst hks
      show appendNew (lookupAssoc (pushAssoc s.store sid e) sid) (ingestedFor sid t) = _
      rw [lookupAssoc_pushAssoc_self, appendNew_push,
        ingestedFor_cons_self sid e true t hc]
    · show appendNew (lookupAssoc (pushAssoc s.store sid e) k) (ingestedFor k t) = _
      rw [lookupAssoc_pushAssoc_ne s.store sid k e hks,
        ingestedFor_cons_ne k e true t (by rw [hc]; exact fun h => hks (Option.some.inj h))]

/-- C1: for every sequence of ingestion requests all accepted without error
(each replied `"Event logged"`), a subsequent query for a key that received
at least one of those events returns exactly the events ingested with that
key, field for field, in arrival order — no reordering, no loss, no
duplication introduced by the store. -/
theorem C1_accepted_ingests_query_roundtrip (t : List (Event × Bool)) (k : String)
    (hacc : ∀ o ∈ (run initSys (ingestTrace t)).1, o = .ok (.msg "Event logged"))
    (hne : ingestedFor k t ≠ []) :
    handle_get_events (some k) (runState initSys (ingestTrace t))
      = (.ok (.events (ingestedFor k t)), runState initSys (ingestTrace t)) := by
  obtain ⟨hp, hf, hl⟩ := run_ingest_spec t initSys rfl ⟨"", rfl⟩ hacc
  have hk := hl k
  rw [show lookupAssoc initSys.store k = none from rfl] at hk
  have hsome : appendNew none (ingestedFor k t) = some (ingestedFor k t) := by
    cases hi : ingestedFor k t with
    | nil => exact absurd hi hne
    | cons a l => rfl
  rw [hsome] at hk
  simp [handle_get_events, get_events, hp, hk]

/-- Witness for C1: one accepted ingestion of
`Event(event_type "click", timestamp 1000, content "s1")` followed by a
query for `"s1"`. -/
theorem C1_witness :
    handle_get_events (some "s1")
        (runState initSys (ingestTrace [(⟨"click", 1000, some "s1"⟩, true)]))
      = (.ok (.events (ingestedFor "s1" [(⟨"click", 1000, some "s1"⟩, true)])),
         runState initSys (ingestTrace [(⟨"click", 1000, some "s1"⟩, true)])) :=
  C1_accepted_ingests_query_roundtrip [(⟨"click", 1000, some "s1"⟩, true)] "s1"
    (by decide) (by decide)

/-- C2 counterexample: when the durable append of an ingestion fails, the
handler panics instead of returning an error value, and the SessionStore
sequence for the key is NOT unchanged — it already contains the event whose
durable write failed, contradicting the claim. -/
theorem C2_counterexample :
    (handle_log_event ⟨"click", 2, some "s1"⟩ initSys false).1 = .panicked
    ∧ lookupAssoc (handle_log_event ⟨"click", 2, some "s1"⟩ initSys false).2.store "s1"
        = some [⟨"click", 2, some "s1"⟩]
    ∧ lookupAssoc initSys.store "s1" = none := by
  decide

/-- C2 amended: when the durable append fails during an ingestion with a
present key and an unpoisoned store, the handler panics (no `DurabilityError`
is returned), the SessionStore for that key has already been updated with
the event, the mutex is left poisoned, and the log file is unchanged. -/
theorem C2_failed_append_already_indexed (e : Event) (sid : String) (s : Sys)
    (hp : s.poisoned = false) (hc : e.content = some sid) :
    (handle_log_event e s false).1 = .panicked
    ∧ (handle_log_event e s false).2.store = pushAssoc s.store sid e
    ∧ (handle_log_event e s false).2.poisoned = true
    ∧ (handle_log_event e s false).2.file = s.file := by
  obtain ⟨ho, hs⟩ := add_event_failed_poisons e sid s hp hc
  exact ⟨ho, by rw [hs], by rw [hs], by rw [hs]⟩

/-- Witness for C2 amended at a concrete failing ingestion. -/
theorem C2_witness :
    (handle_log_event ⟨"open", 3, some "w2"⟩ initSys false).1 = .panicked
    ∧ (handle_log_event ⟨"open", 3, some "w2"⟩ initSys false).2.store
        = pushAssoc initSys.store "w2" ⟨"open", 3, some "w2"⟩
    ∧ (handle_log_event ⟨"open", 3, some "w2"⟩ initSys false).2.poisoned = true
    ∧ (handle_log_event ⟨"open", 3, some "w2"⟩ initSys false).2.file = initSys.file :=
  C2_failed_append_already_indexed ⟨"open", 3, some "w2"⟩ "w2" initSys rfl rfl

/-- C3 counterexample: in an execution whose durable append fails, the log
file is unchanged (no durable write of the event happened) yet the event is
already in the SessionStore — so the in-memory index was updated before the
durable write, contradicting the claimed persist-then-index order. -/
theorem C3_counterexample :
    (handle_log_event ⟨"keystroke", 5, some "sess"⟩ initSys false).2.file = initSys.file
    ∧ lookupAssoc (handle_log_event ⟨"keystroke", 5, some "sess"⟩ initSys false).2.store "sess"
        = some [⟨"keystroke", 5, some "sess"⟩] := by
  decide

/-- C3 amended: `add_event` updates the in-memory index first — from any
unpoisoned state the SessionStore receives the event regardless of whether
the durable append then succeeds or fails. -/
theorem C3_index_updated_before_persist (s : Sys) (sid : String) (e : Event) (ioOk : Bool)
    (hp : s.poisoned = false) :
    (add_event s sid e ioOk).2.store = pushAssoc s.store sid e :=
  add_event_store s sid e ioOk hp

/-- Witness for C3 amended at a concrete failing append. -/
theorem C3_witness :
    (add_event initSys "s9" ⟨"scroll", 7, some "s9"⟩ false).2.store
      = pushAssoc initSys.store "s9" ⟨"scroll", 7, some "s9"⟩ :=
  C3_index_updated_before_persist initSys "s9" ⟨"scroll", 7, some "s9"⟩ false rfl

/-- C4 counterexample: an event with an EMPTY (present but `""`) key is not
rejected — `handle_log_event` accepts it, replies `"Event logged"`, and
stores it under the empty-string key, contradicting the claim for empty
keys. -/
theorem C4_counterexample :
    (handle_log_event ⟨"click", 1, some ""⟩ initSys true).1 = .ok (.msg "Event logged")
    ∧ lookupAssoc (handle_log_event ⟨"click", 1, some ""⟩ initSys true).2.store ""
        = some [⟨"click", 1, some ""⟩] := by
  decide

/-- C4 amended: only an ABSENT key (`content = None`) is rejected, with the
`"Missing session_id"` reply and zero side effects — the state (SessionStore,
DurableLog file, poison flag) is returned untouched; an empty-string key is
accepted and indexed like any other. -/
theorem C4_absent_key_rejected_no_side_effects (e : Event) (s : Sys) (ioOk : Bool)
    (h : e.content = none) :
    handle_log_event e s ioOk = (.ok (.msg "Missing session_id"), s) :=
  handle_log_event_none e s ioOk h

/-- Witness for C4 amended at a concrete keyless event. -/
theorem C4_witness :
    handle_log_event ⟨"click", 4, none⟩ initSys true
      = (.ok (.msg "Missing session_id"), initSys) :=
  C4_absent_key_rejected_no_side_effects ⟨"click", 4, none⟩ initSys true rfl

/-- C5 counterexample: after an ingestion whose durable append failed, the
store mutex is poisoned, and a query for a key that was never ingested
panics instead of returning the not-found reply — the claim fails in such
executions. -/
theorem C5_counterexample :
    (handle_get_events (some "b") (runState initSys [.log ⟨"t", 0, some "a"⟩ false])).1
        = .panicked
    ∧ (handle_get_events (some "b") (runState initSys [.log ⟨"t", 0, some "a"⟩ false])).1
        ≠ .ok (.msg "No events found for session_id") := by
  decide

/-- C5 amended: in any execution in which the store mutex was never poisoned,
a query for a key never ingested returns the `"No events found for
session_id"` reply; and in EVERY reachable state, failures included, no
present key maps to an empty sequence. -/
theorem C5_notfound_for_unseen_key (rs : List Req) (k : String)
    (hk : ∀ e io, Req.log e io ∈ rs → e.content ≠ some k)
    (hp : (runState initSys rs).poisoned = false) :
    (handle_get_events (some k) (runState initSys rs)).1
        = .ok (.msg "No events found for session_id")
    ∧ ∀ rs' k' l, lookupAssoc (runState initSys rs').store k' = some l → l ≠ [] := by
  constructor
  · have hl : lookupAssoc (runState initSys rs).store k = none := by
      rw [run_frame rs k initSys hk]
      rfl
    simp [handle_get_events, get_events, hp, hl]
  · intro rs' k' l hl
    exact (run_invariants rs' initSys (fun _ _ h => Option.noConfusion h)
      (fun _ _ h => Option.noConfusion h)).1 k' l hl

/-- Witness for C5 amended: one accepted ingestion for `"s1"`, then the
hypotheses for the never-ingested key `"s3"`. -/
theorem C5_witness :
    (handle_get_events (some "s3")
        (runState initSys [.log ⟨"click", 1, some "s1"⟩ true])).1
      = .ok (.msg "No events found for session_id")
    ∧ ∀ rs' k' l, lookupAssoc (runState initSys rs').store k' = some l → l ≠ [] :=
  C5_notfound_for_unseen_key [.log ⟨"click", 1, some "s1"⟩ true] "s3"
    (by
      intro e io h
      rw [List.mem_singleton] at h
      injection h with h1 h2
      subst h1
      decide)
    (by decide)

/-- C6 counterexample: a failing append makes its own request panic with no
reply, and the next, perfectly healthy request (different key, working I/O)
panics as well because the store mutex was poisoned — the failure is neither
reported to the caller nor confined to the single failing request. -/
theorem C6_counterexample :
    (run initSys [.log ⟨"a", 1, some "k1"⟩ false, .log ⟨"b", 2, some "k2"⟩ true]).1
      = [.panicked, .panicked] := by
  decide

/-- C6 amended: when a durable append fails, the handling task panics
(producing no reply for its caller), and the poisoned mutex makes every
subsequent ingestion with a present key and every subsequent query panic
too. -/
theorem C6_failed_append_poisons_later_requests (s : Sys) (e1 e2 : Event)
    (sid1 sid2 : String) (io2 : Bool) (k : String)
    (hp : s.poisoned = false) (h1 : e1.content = some sid1) (h2 : e2.content = some sid2) :
    (handle_log_event e1 s false).1 = .panicked
    ∧ (handle_log_event e2 (handle_log_event e1 s false).2 io2).1 = .panicked
    ∧ (handle_get_events (some k) (handle_log_event e1 s false).2).1 = .panicked := by
  obtain ⟨ho, hs⟩ := add_event_failed_poisons e1 sid1 s hp h1
  refine ⟨ho, ?_, ?_⟩
  · exact handle_log_event_poisoned e2 _ io2 sid2 h2 (by rw [hs])
  · exact handle_get_events_poisoned k _ (by rw [hs])

/-- Witness for C6 amended at concrete requests. -/
theorem C6_witness :
    (handle_log_event ⟨"b", 2, some "k2"⟩ initSys false).1 = .panicked
    ∧ (handle_log_event ⟨"c", 3, some "k3"⟩
        (handle_log_event ⟨"b", 2, some "k2"⟩ initSys false).2 true).1 = .panicked
    ∧ (handle_get_events (some "k2")
        (handle_log_event ⟨"b", 2, some "k2"⟩ initSys false).2).1 = .panicked :=
  C6_failed_append_poisons_later_requests initSys ⟨"b", 2, some "k2"⟩ ⟨"c", 3, some "k3"⟩
    "k2" "k3" true "k2" rfl rfl rfl

/-- C7: a successful durable append leaves the previous log contents `c` in
place as a prefix and appends exactly one record for the event — the
`Debug` dump of the event, which contains no newline, terminated by a single
newline; nothing is rewritten in place. -/
theorem C7_append_extends_log_with_one_record (s : Sys) (sid : String) (e : Event) (c : String)
    (hp : s.poisoned = false) (hf : s.file = some c) :
    (add_event s sid e true).1 = true
    ∧ (add_event s sid e true).2.file = some (c ++ ⟨debugEventL e⟩ ++ "\n")
    ∧ '\n' ∉ debugEventL e := by
  rw [add_event_ok s sid e c hp hf]
  refine ⟨rfl, ?_, fun h => debugEventL_noNL e '\n' h rfl⟩
  show some (c ++ logEntry e) = some (c ++ ⟨debugEventL e⟩ ++ "\n")
  apply congrArg some
  apply String.ext
  show c.data ++ (debugEventL e ++ ['\n']) = (c.data ++ debugEventL e) ++ ['\n']
  rw [List.append_assoc]

/-- Witness for C7 at a concrete append onto the startup-empty log. -/
theorem C7_witness :
    (add_event initSys "s1" ⟨"click", 1000, some "x"⟩ true).1 = true
    ∧ (add_event initSys "s1" ⟨"click", 1000, some "x"⟩ true).2.file
        = some ("" ++ ⟨debugEventL ⟨"click", 1000, some "x"⟩⟩ ++ "\n")
    ∧ '\n' ∉ debugEventL ⟨"click", 1000, some "x"⟩ :=
  C7_append_extends_log_with_one_record initSys "s1" ⟨"click", 1000, some "x"⟩ "" rfl rfl

/-- C8: `insert_event` always hands the backend the fixed statement literal
`insertStmt` — independent of the event — binding exactly the four fields
`user_id, event_type, timestamp, data` positionally, and when the backend
fails it returns the backend's error to the caller unchanged. -/
theorem C8_parameterized_insert_error_passthrough
    (execute : String → List Server.SqlValue → Except Server.PgError Nat)
    (e e' : Server.Event) (err : Server.PgError)
    (hfail : execute Server.insertStmt (Server.paramsFor e) = .error err) :
    Server.stmtFor e = Server.insertStmt
    ∧ Server.stmtFor e = Server.stmtFor e'
    ∧ Server.paramsFor e
        = [.text e.user_id, .text e.event_type, .text e.timestamp, .nullableText e.data]
    ∧ Server.insert_event execute e = .error err := by
  refine ⟨rfl, rfl, rfl, ?_⟩
  unfold Server.insert_event
  rw [show Server.stmtFor e = Server.insertStmt from rfl, hfail]

/-- Witness for C8 with a backend that reports a connection error. -/
theorem C8_witness :
    Server.insert_event (fun _ _ => .error ⟨"connection reset"⟩)
        ⟨"u1", "click", "1000", some "x"⟩
      = .error ⟨"connection reset"⟩ :=
  (C8_parameterized_insert_error_passthrough (fun _ _ => .error ⟨"connection reset"⟩)
    ⟨"u1", "click", "1000", some "x"⟩ ⟨"u2", "file_open", "2000", none⟩
    ⟨"connection reset"⟩ rfl).2.2.2

/-- C9: in every state reachable from startup by any request sequence, every
event stored under key `k` carries `content = some k` — the session key is
recoverable as the event's own content field, so every event a query for `k`
returns has content `k`. -/
theorem C9_stored_event_content_equals_key (rs : List Req) (k : String) (evs : List Event)
    (e : Event) (hl : lookupAssoc (runState initSys rs).store k = some evs) (he : e ∈ evs) :
    e.content = some k :=
  (run_invariants rs initSys (fun _ _ h => Option.noConfusion h)
    (fun _ _ h => Option.noConfusion h)).2 k evs hl e he

/-- Witness for C9 after one concrete ingestion. -/
theorem C9_witness :
    (⟨"click", 1, some "s1"⟩ : Event).content = some "s1" :=
  C9_stored_event_content_equals_key [.log ⟨"click", 1, some "s1"⟩ true] "s1"
    [⟨"click", 1, some "s1"⟩] ⟨"click", 1, some "s1"⟩ (by decide) (by decide)

/-- C10: startup runs `File::create("events.log")`, which truncates any
previous contents, so after startup the log is empty whatever a previous run
left behind, and every later observation of the system is independent of the
previous run's log. -/
theorem C10_startup_truncates_previous_log (prevContents : Option String) (rs : List Req) :
    (startup prevContents).file = some ""
    ∧ runState (startup prevContents) rs = runState initSys rs :=
  ⟨rfl, rfl⟩
